import Mathlib

/-!
# Verification of the helixlauncher-meta coordinate and component model

This file embeds the Gradle-style artifact coordinate parser/formatter of
`src/util.rs` and the serde-backed component schema of `src/component.rs`,
and proves the specified properties about them.

Rust `String`/`&str` values are embedded as Lean `String`; the splitting
primitives (`str::split_once`, `str::rsplit_once`) act on the underlying
character lists.
-/

/-- Embedding of Rust `str::split_once`: splits at the first occurrence of
the character `c`, returning the parts before and after it, or `none` when
`c` does not occur. -/
def splitOnce (c : Char) : List Char → Option (List Char × List Char)
  | [] => none
  | x :: xs =>
    if x = c then some ([], xs)
    else (splitOnce c xs).map (fun p => (x :: p.1, p.2))

/-- Embedding of Rust `str::rsplit_once`: splits at the last occurrence of
the character `c`, returning the parts before and after it. -/
def rsplitOnce (c : Char) (s : List Char) : Option (List Char × List Char) :=
  (splitOnce c s.reverse).map (fun p => (p.2.reverse, p.1.reverse))

/-- The artifact coordinate `group:artifact:version[:classifier][@extension]`
(`GradleSpecifier` in `src/util.rs`). -/
structure GradleSpecifier where
  group : String
  artifact : String
  version : String
  classifier : Option String
  extension : String
deriving DecidableEq, Repr

/-- Parse errors of `GradleSpecifier::from_str` (`GradleParseError` in
`src/util.rs`); each constructor carries the text the Rust code stores in
the error value. -/
inductive GradleParseError where
  | ArtifactIdMissing (s : String)
  | VersionMissing (s : String)
deriving DecidableEq, Repr

/-- Embedding of `GradleSpecifier::from_str`: the first two `:` splits give
group and artifact, an `rsplit_once('@')` gives the optional extension
(default `"jar"`), and a final `split_once(':')` separates version from the
optional classifier.  Note the Rust code shadows `s`, so `VersionMissing`
carries the remainder after the first `:`. -/
def GradleSpecifier.fromStr (s : String) : Except GradleParseError GradleSpecifier :=
  match splitOnce ':' s.data with
  | none => .error (.ArtifactIdMissing s)
  | some (group, s1) =>
    match splitOnce ':' s1 with
    | none => .error (.VersionMissing ⟨s1⟩)
    | some (artifact, s2) =>
      let p :=
        match rsplitOnce '@' s2 with
        | none => (s2, "jar".data)
        | some q => q
      let vc :=
        match splitOnce ':' p.1 with
        | none => (p.1, (none : Option (List Char)))
        | some (v, cl) => (v, some cl)
      .ok ⟨⟨group⟩, ⟨artifact⟩, ⟨vc.1⟩, vc.2.map String.mk, ⟨p.2⟩⟩

/-- Embedding of the `Display` impl for `GradleSpecifier`: always emits
`group:artifact:version`, appends `:classifier` only when present, and
appends `@extension` only when the extension differs from `"jar"`. -/
def GradleSpecifier.display (g : GradleSpecifier) : String :=
  g.group ++ ":" ++ g.artifact ++ ":" ++ g.version
    ++ (match g.classifier with | none => "" | some cl => ":" ++ cl)
    ++ (if g.extension = "jar" then "" else "@" ++ g.extension)

/-- Embedding of `GradleSpecifier::to_url`: `base_repo`, then the group
with each `.` replaced by `/`, then `/artifact/version/artifact-version`,
then `-classifier` when present, then `.extension`. -/
def GradleSpecifier.toUrl (g : GradleSpecifier) (base_repo : String) : String :=
  base_repo ++ ⟨g.group.data.map (fun c => if c = '.' then '/' else c)⟩
    ++ "/" ++ g.artifact ++ "/" ++ g.version ++ "/" ++ g.artifact ++ "-" ++ g.version
    ++ (match g.classifier with | none => "" | some cl => "-" ++ cl)
    ++ "." ++ g.extension

/-- Embedding of `GradleSpecifier::with_classifier`: a copy with the
classifier replaced, the original left untouched. -/
def GradleSpecifier.withClassifier (g : GradleSpecifier) (classifier : String) :
    GradleSpecifier :=
  { g with classifier := some classifier }

/-- C2: the parser splits on the first two `:`, then the last `@` (extension
defaulting to `"jar"`), then the first remaining `:` (optional classifier);
on `"org.quilt:loader:0.20.0"` it yields group `org.quilt`, artifact
`loader`, version `0.20.0`, no classifier and extension `jar`, and on
`"org.quilt:loader:0.20.0:dev@zip"` it additionally yields classifier `dev`
and extension `zip`. -/
theorem c2_parse_examples :
    GradleSpecifier.fromStr "org.quilt:loader:0.20.0" =
      .ok ⟨"org.quilt", "loader", "0.20.0", none, "jar"⟩ ∧
    GradleSpecifier.fromStr "org.quilt:loader:0.20.0:dev@zip" =
      .ok ⟨"org.quilt", "loader", "0.20.0", some "dev", "zip"⟩ := by
  exact ⟨rfl, rfl⟩

/-- C4: `to_url` concatenates the base repository (unnormalized), the group
with dots replaced by slashes, and the artifact path; the classifier, when
present, is inserted before the extension. -/
theorem c4_to_url_examples :
    GradleSpecifier.toUrl ⟨"net.minecraft", "launchwrapper", "1.2", none, "jar"⟩
      "https://repo/" =
      "https://repo/net/minecraft/launchwrapper/1.2/launchwrapper-1.2.jar" ∧
    GradleSpecifier.toUrl ⟨"net.minecraft", "launchwrapper", "1.2", some "natives", "jar"⟩
      "https://repo/" =
      "https://repo/net/minecraft/launchwrapper/1.2/launchwrapper-1.2-natives.jar" := by
  exact ⟨rfl, rfl⟩

/-! ## Splitting lemmas -/

theorem splitOnce_eq_none (c : Char) (s : List Char) (h : c ∉ s) :
    splitOnce c s = none := by
  induction s with
  | nil => rfl
  | cons x xs ih =>
    have hx : ¬ x = c := fun e => h (e ▸ List.mem_cons_self x xs)
    simp [splitOnce, hx, ih (fun m => h (List.mem_cons_of_mem x m))]

theorem splitOnce_append (c : Char) (xs ys : List Char) (h : c ∉ xs) :
    splitOnce c (xs ++ c :: ys) = some (xs, ys) := by
  induction xs with
  | nil => simp [splitOnce]
  | cons x l ih =>
    have hx : ¬ x = c := fun e => h (e ▸ List.mem_cons_self x l)
    simp [splitOnce, hx, ih (fun m => h (List.mem_cons_of_mem x m))]

theorem splitOnce_eq_some (c : Char) (s a b : List Char)
    (h : splitOnce c s = some (a, b)) : s = a ++ c :: b ∧ c ∉ a := by
  induction s generalizing a b with
  | nil => simp [splitOnce] at h
  | cons x xs ih =>
    by_cases hx : x = c
    · subst hx
      simp only [splitOnce, if_pos rfl, Option.some.injEq, Prod.mk.injEq] at h
      obtain ⟨rfl, rfl⟩ := h
      simp
    · simp only [splitOnce, if_neg hx] at h
      cases hs : splitOnce c xs with
      | none => rw [hs] at h; simp at h
      | some p =>
        rw [hs] at h
        simp only [Option.map_some', Option.some.injEq] at h
        obtain ⟨hxs, hnc⟩ := ih p.1 p.2 hs
        injection h with h1 h2
        subst h1
        subst h2
        refine ⟨by simp [hxs], ?_⟩
        simp only [List.mem_cons, not_or]
        exact ⟨fun e => hx e.symm, hnc⟩

theorem splitOnce_isSome_of_mem (c : Char) (s : List Char) (h : c ∈ s) :
    ∃ a b, splitOnce c s = some (a, b) := by
  induction s with
  | nil => simp at h
  | cons x xs ih =>
    by_cases hx : x = c
    · exact ⟨[], xs, by simp [splitOnce, hx]⟩
    · have hm : c ∈ xs := by
        rcases List.mem_cons.mp h with h1 | h1
        · exact absurd h1.symm hx
        · exact h1
      obtain ⟨a, b, hs⟩ := ih hm
      exact ⟨x :: a, b, by simp [splitOnce, hx, hs]⟩

theorem rsplitOnce_eq_none (c : Char) (s : List Char) (h : c ∉ s) :
    rsplitOnce c s = none := by
  unfold rsplitOnce
  rw [splitOnce_eq_none c s.reverse (fun m => h (List.mem_reverse.mp m))]
  rfl

theorem rsplitOnce_append (c : Char) (xs ys : List Char) (h : c ∉ ys) :
    rsplitOnce c (xs ++ c :: ys) = some (xs, ys) := by
  unfold rsplitOnce
  have hrev : (xs ++ c :: ys).reverse = ys.reverse ++ c :: xs.reverse := by
    simp [List.reverse_append]
  rw [hrev, splitOnce_append c _ _ (fun m => h (List.mem_reverse.mp m))]
  simp

theorem rsplitOnce_eq_some (c : Char) (s a b : List Char)
    (h : rsplitOnce c s = some (a, b)) : s = a ++ c :: b := by
  unfold rsplitOnce at h
  cases hs : splitOnce c s.reverse with
  | none => rw [hs] at h; simp at h
  | some p =>
    rw [hs] at h
    simp only [Option.map_some', Option.some.injEq] at h
    obtain ⟨hrev, _⟩ := splitOnce_eq_some c s.reverse p.1 p.2 hs
    injection h with h1 h2
    subst h1
    subst h2
    have := congrArg List.reverse hrev
    simpa [List.reverse_append] using this

/-- The character list underlying the `Display` rendering of a coordinate. -/
theorem display_data (c : GradleSpecifier) :
    (GradleSpecifier.display c).data =
      c.group.data ++ ':' :: (c.artifact.data ++ ':' :: (c.version.data
        ++ (match c.classifier with | none => [] | some cl => ':' :: cl.data)
        ++ (if c.extension = "jar" then [] else '@' :: c.extension.data))) := by
  obtain ⟨g, a, v, cl, e⟩ := c
  cases cl <;> by_cases he : e = "jar" <;>
    simp [GradleSpecifier.display, he, String.data_append, List.append_assoc]

/-- C1 counterexample: the coordinate with group `a`, artifact `b`, version
`c:d`, no classifier and extension `jar` satisfies the spec's stated field
invariants, but formatting it and re-parsing yields version `c` with
classifier `d`, not the original coordinate. -/
theorem c1_counterexample :
    GradleSpecifier.fromStr
        (GradleSpecifier.display ⟨"a", "b", "c:d", none, "jar"⟩) ≠
      Except.ok ⟨"a", "b", "c:d", none, "jar"⟩ := by
  intro h
  have e : GradleSpecifier.fromStr
      (GradleSpecifier.display ⟨"a", "b", "c:d", none, "jar"⟩) =
      Except.ok ⟨"a", "b", "c", some "d", "jar"⟩ := rfl
  rw [e] at h
  injection h with h1
  exact absurd h1 (by decide)

/-- C1 (amended): formatting then parsing reproduces the coordinate provided
its fields are delimiter-clean: no `:` in group or artifact, no `:` or `@`
in version, no `@` in the classifier (when present) or in the extension. -/
theorem c1_round_trip (c : GradleSpecifier)
    (hg : ':' ∉ c.group.data) (ha : ':' ∉ c.artifact.data)
    (hv1 : ':' ∉ c.version.data) (hv2 : '@' ∉ c.version.data)
    (hcl : ∀ cl, c.classifier = some cl → '@' ∉ cl.data)
    (he : '@' ∉ c.extension.data) :
    GradleSpecifier.fromStr (GradleSpecifier.display c) = Except.ok c := by
  obtain ⟨g, a, v, cl, e⟩ := c
  simp only at hg ha hv1 hv2 he hcl
  cases cl with
  | none =>
    by_cases hjar : e = "jar"
    · subst hjar
      have hd := display_data ⟨g, a, v, none, "jar"⟩
      simp only [if_pos rfl, if_true, List.append_nil] at hd
      have h1 : splitOnce ':' (GradleSpecifier.display ⟨g, a, v, none, "jar"⟩).data
          = some (g.data, a.data ++ ':' :: v.data) := by
        rw [hd]; exact splitOnce_append ':' _ _ hg
      have h2 : splitOnce ':' (a.data ++ ':' :: v.data) = some (a.data, v.data) :=
        splitOnce_append ':' _ _ ha
      have h3 : rsplitOnce '@' v.data = none := rsplitOnce_eq_none '@' _ hv2
      have h4 : splitOnce ':' v.data = none := splitOnce_eq_none ':' _ hv1
      simp only [GradleSpecifier.fromStr, h1, h2, h3, h4]
      rfl
    · have hd := display_data ⟨g, a, v, none, e⟩
      simp only [if_neg hjar, List.append_nil] at hd
      have h1 : splitOnce ':' (GradleSpecifier.display ⟨g, a, v, none, e⟩).data
          = some (g.data, a.data ++ ':' :: (v.data ++ '@' :: e.data)) := by
        rw [hd]; exact splitOnce_append ':' _ _ hg
      have h2 : splitOnce ':' (a.data ++ ':' :: (v.data ++ '@' :: e.data))
          = some (a.data, v.data ++ '@' :: e.data) := splitOnce_append ':' _ _ ha
      have h3 : rsplitOnce '@' (v.data ++ '@' :: e.data) = some (v.data, e.data) :=
        rsplitOnce_append '@' _ _ he
      have h4 : splitOnce ':' v.data = none := splitOnce_eq_none ':' _ hv1
      simp only [GradleSpecifier.fromStr, h1, h2, h3, h4]
      rfl
  | some x =>
    have hx : '@' ∉ x.data := hcl x rfl
    by_cases hjar : e = "jar"
    · subst hjar
      have hd := display_data ⟨g, a, v, some x, "jar"⟩
      simp only [if_pos rfl, if_true, List.append_nil] at hd
      have h1 : splitOnce ':' (GradleSpecifier.display ⟨g, a, v, some x, "jar"⟩).data
          = some (g.data, a.data ++ ':' :: (v.data ++ ':' :: x.data)) := by
        rw [hd]; exact splitOnce_append ':' _ _ hg
      have h2 : splitOnce ':' (a.data ++ ':' :: (v.data ++ ':' :: x.data))
          = some (a.data, v.data ++ ':' :: x.data) := splitOnce_append ':' _ _ ha
      have h3 : rsplitOnce '@' (v.data ++ ':' :: x.data) = none := by
        refine rsplitOnce_eq_none '@' _ (fun m => ?_)
        rcases List.mem_append.mp m with m1 | m1
        · exact hv2 m1
        · rcases List.mem_cons.mp m1 with m2 | m2
          · exact absurd m2 (by decide)
          · exact hx m2
      have h4 : splitOnce ':' (v.data ++ ':' :: x.data) = some (v.data, x.data) :=
        splitOnce_append ':' _ _ hv1
      simp only [GradleSpecifier.fromStr, h1, h2, h3, h4]
      rfl
    · have hd := display_data ⟨g, a, v, some x, e⟩
      simp only [if_neg hjar] at hd
      have h1 : splitOnce ':' (GradleSpecifier.display ⟨g, a, v, some x, e⟩).data
          = some (g.data, a.data ++ ':' :: ((v.data ++ ':' :: x.data) ++ '@' :: e.data)) := by
        rw [hd]
        have : v.data ++ ':' :: x.data ++ '@' :: e.data
            = (v.data ++ ':' :: x.data) ++ '@' :: e.data := by simp [List.append_assoc]
        rw [this]
        exact splitOnce_append ':' _ _ hg
      have h2 : splitOnce ':' (a.data ++ ':' :: ((v.data ++ ':' :: x.data) ++ '@' :: e.data))
          = some (a.data, (v.data ++ ':' :: x.data) ++ '@' :: e.data) :=
        splitOnce_append ':' _ _ ha
      have h3 : rsplitOnce '@' ((v.data ++ ':' :: x.data) ++ '@' :: e.data)
          = some (v.data ++ ':' :: x.data, e.data) := rsplitOnce_append '@' _ _ he
      have h4 : splitOnce ':' (v.data ++ ':' :: x.data) = some (v.data, x.data) :=
        splitOnce_append ':' _ _ hv1
      simp only [GradleSpecifier.fromStr, h1, h2, h3, h4]
      rfl

/-- Witness for `c1_round_trip` at a concrete delimiter-clean coordinate. -/
theorem c1_round_trip_witness :
    GradleSpecifier.fromStr
        (GradleSpecifier.display ⟨"org.quilt", "loader", "0.20.0", some "dev", "zip"⟩) =
      Except.ok ⟨"org.quilt", "loader", "0.20.0", some "dev", "zip"⟩ :=
  c1_round_trip ⟨"org.quilt", "loader", "0.20.0", some "dev", "zip"⟩
    (by decide) (by decide) (by decide) (by decide)
    (by intro cl h; injection h with h1; subst h1; decide) (by decide)

/-- C3 counterexample: `"org.quilt:loader"` fails with `VersionMissing`, but
the error value carries only `"loader"` — the remainder after the first `:`
— not the original offending input `"org.quilt:loader"`. -/
theorem c3_counterexample :
    GradleSpecifier.fromStr "org.quilt:loader" =
      Except.error (GradleParseError.VersionMissing "loader") ∧
    ("loader" : String) ≠ "org.quilt:loader" := by
  exact ⟨rfl, by decide⟩

/-- C3 (amended): parsing fails with `ArtifactIdMissing`, carrying the whole
input, exactly when the input contains no `:`; it fails with
`VersionMissing` exactly when the remainder after the first `:` contains no
further `:`, and then the error carries that remainder, not the original
input. -/
theorem c3_error_conditions (s : String) :
    (GradleSpecifier.fromStr s =
        Except.error (GradleParseError.ArtifactIdMissing s) ↔ ':' ∉ s.data) ∧
    (∀ g r, splitOnce ':' s.data = some (g, r) →
      (GradleSpecifier.fromStr s =
        Except.error (GradleParseError.VersionMissing ⟨r⟩) ↔ ':' ∉ r)) := by
  constructor
  · constructor
    · intro heq
      by_contra hmem
      obtain ⟨g, r, hsp⟩ := splitOnce_isSome_of_mem ':' s.data hmem
      cases hsp2 : splitOnce ':' r with
      | none => simp [GradleSpecifier.fromStr, hsp, hsp2] at heq
      | some p => simp [GradleSpecifier.fromStr, hsp, hsp2] at heq
    · intro h
      simp [GradleSpecifier.fromStr, splitOnce_eq_none ':' s.data h]
  · intro g r hsp
    constructor
    · intro heq
      by_contra hmem
      obtain ⟨a, b, hsp2⟩ := splitOnce_isSome_of_mem ':' r hmem
      simp [GradleSpecifier.fromStr, hsp, hsp2] at heq
    · intro h
      simp [GradleSpecifier.fromStr, hsp, splitOnce_eq_none ':' r h]

/-- Witness for `c3_error_conditions`: `"org.quilt"` fails with
`ArtifactIdMissing`, and `"org.quilt:loader"` with `VersionMissing`. -/
theorem c3_error_conditions_witness :
    GradleSpecifier.fromStr "org.quilt" =
      Except.error (GradleParseError.ArtifactIdMissing "org.quilt") ∧
    GradleSpecifier.fromStr "org.quilt:loader" =
      Except.error (GradleParseError.VersionMissing "loader") :=
  ⟨(c3_error_conditions "org.quilt").1.mpr (by decide),
   ((c3_error_conditions "org.quilt:loader").2
      "org.quilt".data "loader".data rfl).mpr (by decide)⟩

/-- C5 counterexample: parsing enforces no non-emptiness — `"::"` parses
successfully with empty group, artifact and version, and `"a:b:c@"` parses
successfully with an empty extension. -/
theorem c5_counterexample :
    GradleSpecifier.fromStr "::" = Except.ok ⟨"", "", "", none, "jar"⟩ ∧
    GradleSpecifier.fromStr "a:b:c@" = Except.ok ⟨"a", "b", "c", none, ""⟩ := by
  exact ⟨rfl, rfl⟩

/-- C5 (amended): the parser never checks its segments for emptiness, so
group, artifact, version and even the extension can be empty on success;
what does hold is the default: whenever parsing succeeds on an input that
contains no `@`, the extension is the non-empty default `"jar"`. -/
theorem c5_extension_default (s : String) (g : GradleSpecifier)
    (hok : GradleSpecifier.fromStr s = Except.ok g) (hat : '@' ∉ s.data) :
    g.extension = "jar" := by
  cases h1 : splitOnce ':' s.data with
  | none => simp [GradleSpecifier.fromStr, h1] at hok
  | some q =>
    obtain ⟨hs1, _⟩ := splitOnce_eq_some ':' s.data q.1 q.2 h1
    have hat1 : '@' ∉ q.2 := fun m => hat (by
      rw [hs1]; exact List.mem_append.mpr (Or.inr (List.mem_cons_of_mem ':' m)))
    cases h2 : splitOnce ':' q.2 with
    | none => simp [GradleSpecifier.fromStr, h1, h2] at hok
    | some q2 =>
      obtain ⟨hs2, _⟩ := splitOnce_eq_some ':' q.2 q2.1 q2.2 h2
      have hat2 : '@' ∉ q2.2 := fun m => hat1 (by
        rw [hs2]; exact List.mem_append.mpr (Or.inr (List.mem_cons_of_mem ':' m)))
      have h3 : rsplitOnce '@' q2.2 = none := rsplitOnce_eq_none '@' _ hat2
      cases h4 : splitOnce ':' q2.2 with
      | none =>
        simp only [GradleSpecifier.fromStr, h1, h2, h3, h4] at hok
        obtain rfl := Except.ok.inj hok
        rfl
      | some q3 =>
        simp only [GradleSpecifier.fromStr, h1, h2, h3, h4] at hok
        obtain rfl := Except.ok.inj hok
        rfl

/-- Witness for `c5_extension_default` at `"a:b:c"`. -/
theorem c5_extension_default_witness :
    (⟨"a", "b", "c", none, "jar"⟩ : GradleSpecifier).extension = "jar" :=
  c5_extension_default "a:b:c" ⟨"a", "b", "c", none, "jar"⟩ rfl (by decide)

/-! ## Component schema (src/component.rs)

The serde-derived serializers target a JSON value tree; the derive
attributes of the source (`rename_all`, `skip_serializing_if`, `default`,
`untagged`, `deny_unknown_fields`, `serde_as OneOrMany`,
`skip_serializing_none`) are embedded per serde's documented semantics. -/

/-- `OsName` (serde `rename_all = "snake_case"`). -/
inductive OsName where
  | Linux
  | Osx
  | Windows
deriving DecidableEq, Repr, Fintype

/-- `ComponentDependency`: a component id plus optional version constraint;
`version` is skipped when `None` and defaults to `None` when missing. -/
structure ComponentDependency where
  id : String
  version : Option String
deriving DecidableEq, Repr

/-- `Hash` (serde `rename_all = "lowercase"`, externally tagged). -/
inductive Hash where
  | SHA256 (value : String)
  | SHA1 (value : String)
deriving DecidableEq, Repr

/-- The `Display` impl for `Hash`, used for diagnostics only. -/
def Hash.display : Hash → String
  | .SHA1 value => "SHA1 hash " ++ value
  | .SHA256 value => "SHA256 hash " ++ value

/-- `Download`: coordinate, source URL, `u32` byte size, content hash. -/
structure Download where
  name : GradleSpecifier
  url : String
  size : Nat
  hash : Hash
deriving DecidableEq, Repr

/-- `Trait`: capability traits; no serde rename attribute, so the serialized
names are the variant names verbatim.  The derived `Ord` (declaration
order) drives `BTreeSet<Trait>`. -/
inductive Trait where
  | MacStartOnFirstThread
  | SupportsCustomResolution
  | SupportsQuickPlayServerLegacy
  | SupportsQuickPlayServer
  | SupportsQuickPlayWorld
deriving DecidableEq, Repr, Fintype

/-- The derived `Ord` rank of a `Trait` (declaration order). -/
def Trait.rank : Trait → Nat
  | .MacStartOnFirstThread => 0
  | .SupportsCustomResolution => 1
  | .SupportsQuickPlayServerLegacy => 2
  | .SupportsQuickPlayServer => 3
  | .SupportsQuickPlayWorld => 4

/-- `Arch` (serde `rename_all = "snake_case"`). -/
inductive Arch where
  | X86
  | X86_64
  | Arm64
deriving DecidableEq, Repr, Fintype

/-- `Platform`: a list of OS tags (empty means all; serialized via
`OneOrMany`, skipped when empty, defaulting to empty when missing) and an
optional architecture (skipped when `None`). -/
structure Platform where
  os : List OsName
  arch : Option Arch
deriving DecidableEq, Repr

/-- `Native`: a native library descriptor; `exclusions` is skipped when
empty and defaults to empty when missing. -/
structure Native where
  name : GradleSpecifier
  platform : Platform
  exclusions : List String
deriving DecidableEq, Repr

/-- `ConditionalClasspathEntry` (serde `untagged`): either a bare
coordinate or a record with a coordinate plus a platform scope. -/
inductive ConditionalClasspathEntry where
  | All (g : GradleSpecifier)
  | PlatformSpecific (name : GradleSpecifier) (platform : Platform)
deriving DecidableEq, Repr

/-- `Assets`: the asset-index descriptor. -/
structure Assets where
  id : String
  url : String
  sha1 : String
  size : Nat
  total_size : Nat
deriving DecidableEq, Repr

/-- `ConditionFeature` (serde `rename_all = "snake_case"`). -/
inductive ConditionFeature where
  | Demo
  | Fullscreen
  | CustomResolution
  | QuickPlayServerLegacy
  | QuickPlayServer
  | QuickPlayWorld
deriving DecidableEq, Repr, Fintype

/-- `MinecraftArgument` (serde `untagged`): a bare string or a record with
a string value gated by a feature. -/
inductive MinecraftArgument where
  | Always (value : String)
  | Conditional (value : String) (feature : ConditionFeature)
deriving DecidableEq, Repr

/-- `Component`: the launchable-component document of `src/component.rs`.
`traits` embeds `BTreeSet<Trait>` as its sorted, duplicate-free element
list; `release_time` embeds `chrono::DateTime<Utc>` as its serialized
string form. -/
structure Component where
  format_version : Nat
  id : String
  version : String
  requires : List ComponentDependency
  conflicts : List ComponentDependency
  before : List ComponentDependency
  after : List ComponentDependency
  provides : List ComponentDependency
  traits : List Trait
  assets : Option Assets
  downloads : List Download
  jarmods : List GradleSpecifier
  game_jar : Option GradleSpecifier
  main_class : Option String
  game_arguments : List MinecraftArgument
  classpath : List ConditionalClasspathEntry
  natives : List Native
  release_time : String
deriving DecidableEq, Repr

/-- `BTreeSet<Trait>` insertion into the sorted duplicate-free element
list, ordered by the derived `Ord` (declaration order). -/
def btreeInsert (t : Trait) : List Trait → List Trait
  | [] => [t]
  | x :: xs =>
    if t.rank < x.rank then t :: x :: xs
    else if t.rank = x.rank then x :: xs
    else x :: btreeInsert t xs

/-- The `BTreeSet<Trait>` built by inserting the elements of `l` in order
(the set a `Vec`-order-agnostic collector produces). -/
def traitSetOfList (l : List Trait) : List Trait :=
  l.foldl (fun s t => btreeInsert t s) []

/-- JSON values, the target of serde_json serialization. -/
inductive Json where
  | null
  | bool (b : Bool)
  | num (n : Int)
  | str (s : String)
  | arr (elems : List Json)
  | obj (fields : List (String × Json))

/-! ### Serialization -/

/-- Serialization of `OsName` (`snake_case`). -/
def serOsName : OsName → Json
  | .Linux => .str "linux"
  | .Osx => .str "osx"
  | .Windows => .str "windows"

/-- Serialization of `Arch` (`snake_case`). -/
def serArch : Arch → Json
  | .X86 => .str "x86"
  | .X86_64 => .str "x86_64"
  | .Arm64 => .str "arm64"

/-- Serialization of `Trait` (no rename attribute: verbatim variant names). -/
def serTrait : Trait → Json
  | .MacStartOnFirstThread => .str "MacStartOnFirstThread"
  | .SupportsCustomResolution => .str "SupportsCustomResolution"
  | .SupportsQuickPlayServerLegacy => .str "SupportsQuickPlayServerLegacy"
  | .SupportsQuickPlayServer => .str "SupportsQuickPlayServer"
  | .SupportsQuickPlayWorld => .str "SupportsQuickPlayWorld"

/-- Serialization of `ConditionFeature` (`snake_case`). -/
def serConditionFeature : ConditionFeature → Json
  | .Demo => .str "demo"
  | .Fullscreen => .str "fullscreen"
  | .CustomResolution => .str "custom_resolution"
  | .QuickPlayServerLegacy => .str "quick_play_server_legacy"
  | .QuickPlayServer => .str "quick_play_server"
  | .QuickPlayWorld => .str "quick_play_world"

/-- `SerializeDisplay`: a coordinate serializes as its `Display` string. -/
def serGradle (g : GradleSpecifier) : Json := .str g.display

/-- Serialization of `Hash`: externally tagged, lowercase discriminant. -/
def serHash : Hash → Json
  | .SHA256 value => .obj [("sha256", .str value)]
  | .SHA1 value => .obj [("sha1", .str value)]

/-- A field list that is dropped when `b` holds (`skip_serializing_if`). -/
def skipIfEmptyKV (b : Bool) (nm : String) (v : Json) : List (String × Json) :=
  if b then [] else [(nm, v)]

/-- A field list dropped when the option is `none` (`skip_serializing_if =
Option::is_none`, also what `skip_serializing_none` inserts). -/
def optKV {α : Type} (o : Option α) (nm : String) (f : α → Json) :
    List (String × Json) :=
  match o with
  | none => []
  | some a => [(nm, f a)]

/-- Serialization of `ComponentDependency`. -/
def serComponentDependency (d : ComponentDependency) : Json :=
  .obj ([("id", Json.str d.id)] ++ optKV d.version "version" Json.str)

/-- Serialization of `Platform`: `os` via `OneOrMany` (a singleton list is
emitted as the bare element), skipped when empty; `arch` skipped when
`none`. -/
def serPlatform (p : Platform) : Json :=
  .obj (skipIfEmptyKV p.os.isEmpty "os"
      (match p.os with
       | [o] => serOsName o
       | l => .arr (l.map serOsName))
    ++ optKV p.arch "arch" serArch)

/-- Serialization of `Native`. -/
def serNative (n : Native) : Json :=
  .obj ([("name", serGradle n.name), ("platform", serPlatform n.platform)]
    ++ skipIfEmptyKV n.exclusions.isEmpty "exclusions"
        (.arr (n.exclusions.map Json.str)))

/-- Serialization of `Download`. -/
def serDownload (d : Download) : Json :=
  .obj [("name", serGradle d.name), ("url", Json.str d.url),
    ("size", Json.num (Int.ofNat d.size)), ("hash", serHash d.hash)]

/-- Serialization of `Assets`. -/
def serAssets (a : Assets) : Json :=
  .obj [("id", Json.str a.id), ("url", Json.str a.url),
    ("sha1", Json.str a.sha1), ("size", Json.num (Int.ofNat a.size)),
    ("total_size", Json.num (Int.ofNat a.total_size))]

/-- Serialization of `MinecraftArgument` (untagged). -/
def serMinecraftArgument : MinecraftArgument → Json
  | .Always value => .str value
  | .Conditional value feature =>
    .obj [("value", Json.str value), ("feature", serConditionFeature feature)]

/-- Serialization of `ConditionalClasspathEntry` (untagged). -/
def serCPE : ConditionalClasspathEntry → Json
  | .All g => serGradle g
  | .PlatformSpecific name platform =>
    .obj [("name", serGradle name), ("platform", serPlatform platform)]

/-- The serialized field list of a `Component`, in declaration order, with
the source's skip rules: the five dependency lists, `traits`, `jarmods`,
`game_arguments` and `natives` are skipped when empty; `assets`,
`game_jar` and `main_class` are skipped when `none`; `downloads`,
`classpath` and the scalar fields are always emitted. -/
def serComponentFields (c : Component) : List (String × Json) :=
  [("format_version", Json.num (Int.ofNat c.format_version)),
   ("id", Json.str c.id),
   ("version", Json.str c.version)]
  ++ skipIfEmptyKV c.requires.isEmpty "requires"
      (.arr (c.requires.map serComponentDependency))
  ++ skipIfEmptyKV c.conflicts.isEmpty "conflicts"
      (.arr (c.conflicts.map serComponentDependency))
  ++ skipIfEmptyKV c.before.isEmpty "before"
      (.arr (c.before.map serComponentDependency))
  ++ skipIfEmptyKV c.after.isEmpty "after"
      (.arr (c.after.map serComponentDependency))
  ++ skipIfEmptyKV c.provides.isEmpty "provides"
      (.arr (c.provides.map serComponentDependency))
  ++ skipIfEmptyKV c.traits.isEmpty "traits" (.arr (c.traits.map serTrait))
  ++ optKV c.assets "assets" serAssets
  ++ [("downloads", Json.arr (c.downloads.map serDownload))]
  ++ skipIfEmptyKV c.jarmods.isEmpty "jarmods" (.arr (c.jarmods.map serGradle))
  ++ optKV c.game_jar "game_jar" serGradle
  ++ optKV c.main_class "main_class" Json.str
  ++ skipIfEmptyKV c.game_arguments.isEmpty "game_arguments"
      (.arr (c.game_arguments.map serMinecraftArgument))
  ++ [("classpath", Json.arr (c.classpath.map serCPE))]
  ++ skipIfEmptyKV c.natives.isEmpty "natives" (.arr (c.natives.map serNative))
  ++ [("release_time", Json.str c.release_time)]

/-- Serialization of `Component` (`deny_unknown_fields` is deserialization
only). -/
def serComponent (c : Component) : Json := .obj (serComponentFields c)

/-! ### Rendering a JSON value to text (serde_json compact output) -/

mutual

/-- Compact textual rendering of a JSON value (string escaping is not
needed for the schema's field names and is left to the identity). -/
def renderJson : Json → String
  | .null => "null"
  | .bool b => if b then "true" else "false"
  | .num n => toString n
  | .str s => "\"" ++ s ++ "\""
  | .arr xs => "[" ++ renderArr xs ++ "]"
  | .obj fs => "\x7b" ++ renderObj fs ++ "\x7d"

/-- Comma-separated rendering of array elements. -/
def renderArr : List Json → String
  | [] => ""
  | [x] => renderJson x
  | x :: y :: rest => renderJson x ++ "," ++ renderArr (y :: rest)

/-- Comma-separated rendering of object fields. -/
def renderObj : List (String × Json) → String
  | [] => ""
  | [(k, v)] => "\"" ++ k ++ "\":" ++ renderJson v
  | (k, v) :: y :: rest =>
    "\"" ++ k ++ "\":" ++ renderJson v ++ "," ++ renderObj (y :: rest)

end

/-! ### Deserialization -/

/-- Deserialization errors (serde error kinds relevant to this schema). -/
inductive DeError where
  | invalidType
  | invalidValue
  | missingField (k : String)
  | unknownField (k : String)
  | duplicateField (k : String)
  | noVariantMatched
  | gradle (e : GradleParseError)
deriving DecidableEq, Repr

/-- A known field name occurring more than once, if any (serde's derived
deserializers reject duplicate occurrences of known fields). -/
def dupKnownField (fields : List (String × Json)) (known : List String) :
    Option String :=
  known.find? (fun k => decide (2 ≤ fields.countP (fun f => f.1 == k)))

/-- A required struct field: missing is an error. -/
def reqField {α : Type} (fields : List (String × Json)) (k : String)
    (f : Json → Except DeError α) : Except DeError α :=
  match List.lookup k fields with
  | none => .error (.missingField k)
  | some v => f v

/-- A `#[serde(default)]` struct field: missing yields the default. -/
def defaultField {α : Type} (fields : List (String × Json)) (k : String)
    (f : Json → Except DeError α) (d : α) : Except DeError α :=
  match List.lookup k fields with
  | none => .ok d
  | some v => f v

/-- Deserialization of `Option<T>`: `null` (or a missing field, handled at
the struct level) is `None`, any other value deserializes the payload. -/
def deOption {α : Type} (f : Json → Except DeError α) :
    Json → Except DeError (Option α)
  | .null => .ok none
  | j => (f j).map some

/-- An `Option<T>` struct field: serde treats a missing `Option` field as
`None` without an explicit `default`. -/
def optField {α : Type} (fields : List (String × Json)) (k : String)
    (f : Json → Except DeError α) : Except DeError (Option α) :=
  match List.lookup k fields with
  | none => .ok none
  | some v => deOption f v

/-- Deserialization of a string. -/
def deString : Json → Except DeError String
  | .str s => .ok s
  | _ => .error .invalidType

/-- Deserialization of a `u32`: an integer within `[0, 2^32)`. -/
def deU32 : Json → Except DeError Nat
  | .num n => if 0 ≤ n ∧ n < 4294967296 then .ok n.toNat else .error .invalidValue
  | _ => .error .invalidType

/-- `DeserializeFromStr`: a coordinate deserializes from a string via
`GradleSpecifier::from_str`. -/
def deGradle : Json → Except DeError GradleSpecifier
  | .str s =>
    match GradleSpecifier.fromStr s with
    | .ok g => .ok g
    | .error e => .error (.gradle e)
  | _ => .error .invalidType

/-- Deserialization of `OsName`. -/
def deOsName : Json → Except DeError OsName
  | .str s =>
    if s = "linux" then .ok .Linux
    else if s = "osx" then .ok .Osx
    else if s = "windows" then .ok .Windows
    else .error .invalidValue
  | _ => .error .invalidType

/-- Deserialization of `Arch`. -/
def deArch : Json → Except DeError Arch
  | .str s =>
    if s = "x86" then .ok .X86
    else if s = "x86_64" then .ok .X86_64
    else if s = "arm64" then .ok .Arm64
    else .error .invalidValue
  | _ => .error .invalidType

/-- Deserialization of `Trait` (verbatim variant names). -/
def deTrait : Json → Except DeError Trait
  | .str s =>
    if s = "MacStartOnFirstThread" then .ok .MacStartOnFirstThread
    else if s = "SupportsCustomResolution" then .ok .SupportsCustomResolution
    else if s = "SupportsQuickPlayServerLegacy" then .ok .SupportsQuickPlayServerLegacy
    else if s = "SupportsQuickPlayServer" then .ok .SupportsQuickPlayServer
    else if s = "SupportsQuickPlayWorld" then .ok .SupportsQuickPlayWorld
    else .error .invalidValue
  | _ => .error .invalidType

/-- Deserialization of `ConditionFeature` (`snake_case`). -/
def deConditionFeature : Json → Except DeError ConditionFeature
  | .str s =>
    if s = "demo" then .ok .Demo
    else if s = "fullscreen" then .ok .Fullscreen
    else if s = "custom_resolution" then .ok .CustomResolution
    else if s = "quick_play_server_legacy" then .ok .QuickPlayServerLegacy
    else if s = "quick_play_server" then .ok .QuickPlayServer
    else if s = "quick_play_world" then .ok .QuickPlayWorld
    else .error .invalidValue
  | _ => .error .invalidType

/-- Deserialization of a `Vec<T>`. -/
def deList {α : Type} (f : Json → Except DeError α) :
    Json → Except DeError (List α)
  | .arr xs => xs.mapM f
  | _ => .error .invalidType

/-- Deserialization of `Hash`: an externally tagged single-entry map with a
lowercase discriminant. -/
def deHash : Json → Except DeError Hash
  | .obj [(k, v)] =>
    if k = "sha256" then (deString v).map Hash.SHA256
    else if k = "sha1" then (deString v).map Hash.SHA1
    else .error .invalidValue
  | _ => .error .invalidType

/-- Deserialization of `ComponentDependency` (unknown fields ignored). -/
def deComponentDependency (j : Json) : Except DeError ComponentDependency :=
  match j with
  | .obj fields =>
    match dupKnownField fields ["id", "version"] with
    | some k => .error (.duplicateField k)
    | none => do
      let idv ← reqField fields "id" deString
      let ver ← optField fields "version" deString
      pure ⟨idv, ver⟩
  | _ => .error .invalidType

/-- Deserialization of `Platform`: `os` accepts one tag or a list of tags
(`OneOrMany`), defaulting to the empty list when missing; `arch` is an
optional field; unknown fields are ignored. -/
def dePlatform (j : Json) : Except DeError Platform :=
  match j with
  | .obj fields =>
    match dupKnownField fields ["os", "arch"] with
    | some k => .error (.duplicateField k)
    | none => do
      let os ← match List.lookup "os" fields with
        | none => pure []
        | some (Json.arr xs) => xs.mapM deOsName
        | some w => (deOsName w).map (fun o => [o])
      let arch ← optField fields "arch" deArch
      pure ⟨os, arch⟩
  | _ => .error .invalidType

/-- Deserialization of `Native` (unknown fields ignored; `exclusions`
defaults to empty). -/
def deNative (j : Json) : Except DeError Native :=
  match j with
  | .obj fields =>
    match dupKnownField fields ["name", "platform", "exclusions"] with
    | some k => .error (.duplicateField k)
    | none => do
      let nm ← reqField fields "name" deGradle
      let pf ← reqField fields "platform" dePlatform
      let ex ← defaultField fields "exclusions" (deList deString) []
      pure ⟨nm, pf, ex⟩
  | _ => .error .invalidType

/-- Deserialization of `Assets`. -/
def deAssets (j : Json) : Except DeError Assets :=
  match j with
  | .obj fields =>
    match dupKnownField fields ["id", "url", "sha1", "size", "total_size"] with
    | some k => .error (.duplicateField k)
    | none => do
      let idv ← reqField fields "id" deString
      let url ← reqField fields "url" deString
      let sha1 ← reqField fields "sha1" deString
      let size ← reqField fields "size" deU32
      let total ← reqField fields "total_size" deU32
      pure ⟨idv, url, sha1, size, total⟩
  | _ => .error .invalidType

/-- Deserialization of `Download`. -/
def deDownload (j : Json) : Except DeError Download :=
  match j with
  | .obj fields =>
    match dupKnownField fields ["name", "url", "size", "hash"] with
    | some k => .error (.duplicateField k)
    | none => do
      let nm ← reqField fields "name" deGradle
      let url ← reqField fields "url" deString
      let size ← reqField fields "size" deU32
      let hash ← reqField fields "hash" deHash
      pure ⟨nm, url, size, hash⟩
  | _ => .error .invalidType

/-- Deserialization of `MinecraftArgument` (untagged): first the bare
string form, then the `value`/`feature` record. -/
def deMinecraftArgument (j : Json) : Except DeError MinecraftArgument :=
  match deString j with
  | .ok s => .ok (.Always s)
  | .error _ =>
    match j with
    | .obj fields =>
      match dupKnownField fields ["value", "feature"] with
      | some k => .error (.duplicateField k)
      | none => do
        let v ← reqField fields "value" deString
        let f ← reqField fields "feature" deConditionFeature
        pure (.Conditional v f)
    | _ => .error .noVariantMatched

/-- Deserialization of `ConditionalClasspathEntry` (untagged): first the
bare coordinate string, then the `name`/`platform` record; any other shape
fails. -/
def deCPE (j : Json) : Except DeError ConditionalClasspathEntry :=
  match deGradle j with
  | .ok g => .ok (.All g)
  | .error _ =>
    match j with
    | .obj fields =>
      match dupKnownField fields ["name", "platform"] with
      | some k => .error (.duplicateField k)
      | none => do
        let nm ← reqField fields "name" deGradle
        let pf ← reqField fields "platform" dePlatform
        pure (.PlatformSpecific nm pf)
    | _ => .error .noVariantMatched

/-- Deserialization of `BTreeSet<Trait>`: the decoded sequence is inserted
element by element into the set. -/
def deTraitSet (j : Json) : Except DeError (List Trait) :=
  match j with
  | .arr xs => (xs.mapM deTrait).map traitSetOfList
  | _ => .error .invalidType

/-- Deserialization of `chrono::DateTime<Utc>`: a string in the document.
Modelled from the spec: chrono's RFC3339 validation lives outside this
repository, so the timestamp is kept as the opaque release-time string. -/
def deDateTime : Json → Except DeError String
  | .str s => .ok s
  | _ => .error .invalidType

/-- The schema's top-level field names, in declaration order. -/
def componentKeys : List String :=
  ["format_version", "id", "version", "requires", "conflicts", "before",
   "after", "provides", "traits", "assets", "downloads", "jarmods",
   "game_jar", "main_class", "game_arguments", "classpath", "natives",
   "release_time"]

/-- Deserialization of `Component` (`deny_unknown_fields`): any field
outside the schema is rejected; the dependency lists, `traits`, `jarmods`,
`game_arguments` and `natives` default to empty when missing; `assets`,
`game_jar` and `main_class` default to `None`; `format_version`, `id`,
`version`, `downloads`, `classpath` and `release_time` are required. -/
def deComponent (j : Json) : Except DeError Component :=
  match j with
  | .obj fields =>
    match fields.find? (fun f => !(componentKeys.contains f.1)) with
    | some f => .error (.unknownField f.1)
    | none =>
      match dupKnownField fields componentKeys with
      | some k => .error (.duplicateField k)
      | none => do
        let fv ← reqField fields "format_version" deU32
        let idv ← reqField fields "id" deString
        let ver ← reqField fields "version" deString
        let req ← defaultField fields "requires" (deList deComponentDependency) []
        let con ← defaultField fields "conflicts" (deList deComponentDependency) []
        let bef ← defaultField fields "before" (deList deComponentDependency) []
        let aft ← defaultField fields "after" (deList deComponentDependency) []
        let pro ← defaultField fields "provides" (deList deComponentDependency) []
        let tr ← defaultField fields "traits" deTraitSet []
        let ass ← optField fields "assets" deAssets
        let dl ← reqField fields "downloads" (deList deDownload)
        let jm ← defaultField fields "jarmods" (deList deGradle) []
        let gj ← optField fields "game_jar" deGradle
        let mc ← optField fields "main_class" deString
        let ga ← defaultField fields "game_arguments" (deList deMinecraftArgument) []
        let cp ← reqField fields "classpath" (deList deCPE)
        let na ← defaultField fields "natives" (deList deNative) []
        let rt ← reqField fields "release_time" deDateTime
        pure ⟨fv, idv, ver, req, con, bef, aft, pro, tr, ass, dl, jm, gj, mc,
          ga, cp, na, rt⟩
  | _ => .error .invalidType

/-- C6: a bare coordinate string decodes to the unconditional classpath
variant, a record with coordinate and platform decodes to the
platform-scoped variant, a record missing `platform` fails, a value that
is neither string nor record fails, and a mixed list decodes each entry to
its correct variant. -/
theorem c6_classpath_untagged :
    deCPE (Json.str "org.quilt:loader:0.20.0") =
      Except.ok (.All ⟨"org.quilt", "loader", "0.20.0", none, "jar"⟩) ∧
    deCPE (Json.obj [("name", Json.str "org.lwjgl:lwjgl:3.3.1"),
        ("platform", Json.obj [("os", Json.str "linux")])]) =
      Except.ok (.PlatformSpecific ⟨"org.lwjgl", "lwjgl", "3.3.1", none, "jar"⟩
        ⟨[.Linux], none⟩) ∧
    (deCPE (Json.obj [("name", Json.str "org.lwjgl:lwjgl:3.3.1")])).isOk = false ∧
    (deCPE (Json.num 3)).isOk = false ∧
    deList deCPE (Json.arr [Json.str "org.quilt:loader:0.20.0",
        Json.obj [("name", Json.str "org.lwjgl:lwjgl:3.3.1"),
          ("platform", Json.obj [("os", Json.str "linux")])]]) =
      Except.ok [.All ⟨"org.quilt", "loader", "0.20.0", none, "jar"⟩,
        .PlatformSpecific ⟨"org.lwjgl", "lwjgl", "3.3.1", none, "jar"⟩
          ⟨[.Linux], none⟩] := by
  exact ⟨rfl, rfl, rfl, rfl, rfl⟩

/-- C7: a platform's `os` field accepts a single tag or a list of tags and
both decode to the same internal list; a platform without an `os` field
decodes to the empty list (meaning all operating systems); and an empty
list serializes with the `os` field omitted. -/
theorem c7_platform_one_or_many :
    dePlatform (Json.obj [("os", Json.str "linux")]) =
      Except.ok ⟨[.Linux], none⟩ ∧
    dePlatform (Json.obj [("os", Json.arr [Json.str "linux"])]) =
      Except.ok ⟨[.Linux], none⟩ ∧
    dePlatform (Json.obj [("os", Json.arr [Json.str "linux", Json.str "osx"])]) =
      Except.ok ⟨[.Linux, .Osx], none⟩ ∧
    dePlatform (Json.obj []) = Except.ok ⟨[], none⟩ ∧
    serPlatform ⟨[], none⟩ = Json.obj [] := by
  exact ⟨rfl, rfl, rfl, rfl, rfl⟩

/-! ### The trait set: order-independence of serialization -/

theorem Trait.rank_inj : ∀ a b : Trait, a.rank = b.rank → a = b := by decide

theorem mem_btreeInsert (t x : Trait) (s : List Trait) :
    x ∈ btreeInsert t s ↔ x = t ∨ x ∈ s := by
  induction s with
  | nil => simp [btreeInsert]
  | cons y ys ih =>
    by_cases h1 : t.rank < y.rank
    · simp only [btreeInsert, if_pos h1, List.mem_cons]
    · by_cases h2 : t.rank = y.rank
      · have hty : t = y := Trait.rank_inj t y h2
        subst hty
        show x ∈ (if t.rank < t.rank then t :: t :: ys
          else if t.rank = t.rank then t :: ys else t :: btreeInsert t ys) ↔ _
        rw [if_neg h1, if_pos rfl]
        simp only [List.mem_cons]
        tauto
      · simp only [btreeInsert, if_neg h1, if_neg h2, List.mem_cons, ih]
        tauto

theorem pairwise_btreeInsert (t : Trait) (s : List Trait)
    (h : s.Pairwise (fun a b => a.rank < b.rank)) :
    (btreeInsert t s).Pairwise (fun a b => a.rank < b.rank) := by
  induction s with
  | nil => simp [btreeInsert]
  | cons x xs ih =>
    rw [List.pairwise_cons] at h
    obtain ⟨hx, hxs⟩ := h
    by_cases h1 : t.rank < x.rank
    · simp only [btreeInsert, if_pos h1]
      refine List.Pairwise.cons ?_ (List.Pairwise.cons hx hxs)
      intro y hy
      rcases List.mem_cons.mp hy with rfl | hy2
      · exact h1
      · exact Nat.lt_trans h1 (hx y hy2)
    · by_cases h2 : t.rank = x.rank
      · simp only [btreeInsert, if_neg h1, if_pos h2]
        exact List.Pairwise.cons hx hxs
      · simp only [btreeInsert, if_neg h1, if_neg h2]
        refine List.Pairwise.cons ?_ (ih hxs)
        intro y hy
        rcases (mem_btreeInsert t y xs).mp hy with rfl | hy2
        · omega
        · exact hx y hy2

theorem mem_foldl_btreeInsert (x : Trait) :
    ∀ (l acc : List Trait),
      x ∈ l.foldl (fun s t => btreeInsert t s) acc ↔ x ∈ acc ∨ x ∈ l := by
  intro l
  induction l with
  | nil => intro acc; simp
  | cons t ts ih =>
    intro acc
    rw [List.foldl_cons, ih (btreeInsert t acc), mem_btreeInsert]
    simp only [List.mem_cons]
    tauto

theorem mem_traitSetOfList (x : Trait) (l : List Trait) :
    x ∈ traitSetOfList l ↔ x ∈ l := by
  rw [traitSetOfList, mem_foldl_btreeInsert]
  simp

theorem pairwise_foldl_btreeInsert :
    ∀ (l acc : List Trait), acc.Pairwise (fun a b => a.rank < b.rank) →
      (l.foldl (fun s t => btreeInsert t s) acc).Pairwise
        (fun a b => a.rank < b.rank) := by
  intro l
  induction l with
  | nil => intro acc h; exact h
  | cons t ts ih =>
    intro acc h
    exact ih (btreeInsert t acc) (pairwise_btreeInsert t acc h)

theorem pairwise_traitSetOfList (l : List Trait) :
    (traitSetOfList l).Pairwise (fun a b => a.rank < b.rank) :=
  pairwise_foldl_btreeInsert l [] (List.Pairwise.nil)

theorem eq_of_pairwise_of_mem_iff :
    ∀ (l1 l2 : List Trait), l1.Pairwise (fun a b => a.rank < b.rank) →
      l2.Pairwise (fun a b => a.rank < b.rank) →
      (∀ x, x ∈ l1 ↔ x ∈ l2) → l1 = l2 := by
  intro l1
  induction l1 with
  | nil =>
    intro l2 _ _ h
    cases l2 with
    | nil => rfl
    | cons y ys => exact absurd ((h y).mpr (List.mem_cons_self y ys)) (by simp)
  | cons x xs ih =>
    intro l2 h1 h2 h
    cases l2 with
    | nil => exact absurd ((h x).mp (List.mem_cons_self x xs)) (by simp)
    | cons y ys =>
      rw [List.pairwise_cons] at h1 h2
      obtain ⟨hx, hxs⟩ := h1
      obtain ⟨hy, hys⟩ := h2
      have hxy : x = y := by
        rcases List.mem_cons.mp ((h x).mp (List.mem_cons_self x xs)) with h3 | h3
        · exact h3
        · have hyx := hy x h3
          rcases List.mem_cons.mp ((h y).mpr (List.mem_cons_self y ys)) with h4 | h4
          · exact h4.symm
          · have := hx y h4
            omega
      subst hxy
      have htails : ∀ z, z ∈ xs ↔ z ∈ ys := by
        intro z
        constructor
        · intro hz
          have hzx := hx z hz
          rcases List.mem_cons.mp ((h z).mp (List.mem_cons_of_mem x hz)) with rfl | h3
          · exact absurd hzx (by omega)
          · exact h3
        · intro hz
          have hzy := hy z hz
          rcases List.mem_cons.mp ((h z).mpr (List.mem_cons_of_mem x hz)) with rfl | h3
          · exact absurd hzy (by omega)
          · exact h3
      rw [ih ys hxs hys htails]

theorem traitSetOfList_congr (l1 l2 : List Trait)
    (h : ∀ t, t ∈ l1 ↔ t ∈ l2) : traitSetOfList l1 = traitSetOfList l2 :=
  eq_of_pairwise_of_mem_iff _ _ (pairwise_traitSetOfList l1)
    (pairwise_traitSetOfList l2)
    (fun x => by rw [mem_traitSetOfList, mem_traitSetOfList]; exact h x)

/-- A concrete component with every defaulted field empty. -/
def sampleComponent : Component :=
  { format_version := 1, id := "net.minecraft", version := "1.20",
    requires := [], conflicts := [], before := [], after := [], provides := [],
    traits := [], assets := none, downloads := [], jarmods := [],
    game_jar := none, main_class := none, game_arguments := [],
    classpath := [], natives := [],
    release_time := "2023-01-01T00:00:00Z" }

/-- C8: serialization is independent of trait insertion order — two
components identical except that their trait sets were built from
membership-equal insertion sequences render to byte-identical output — and
the stored trait set is duplicate-free and strictly ordered by the fixed
enumeration rank (MacStartOnFirstThread, SupportsCustomResolution,
SupportsQuickPlayServerLegacy, SupportsQuickPlayServer,
SupportsQuickPlayWorld). -/
theorem c8_traits_canonical (c : Component) (l1 l2 : List Trait)
    (h : ∀ t, t ∈ l1 ↔ t ∈ l2) :
    renderJson (serComponent { c with traits := traitSetOfList l1 }) =
      renderJson (serComponent { c with traits := traitSetOfList l2 }) ∧
    (traitSetOfList l1).Pairwise (fun a b => a.rank < b.rank) ∧
    (traitSetOfList l1).Nodup := by
  refine ⟨?_, pairwise_traitSetOfList l1, ?_⟩
  · rw [traitSetOfList_congr l1 l2 h]
  · exact (pairwise_traitSetOfList l1).imp
      (fun hlt => fun he => absurd (he ▸ hlt) (Nat.lt_irrefl _))

/-- Witness for `c8_traits_canonical`: insertion orders
`[SupportsQuickPlayServer, MacStartOnFirstThread]` and
`[MacStartOnFirstThread, SupportsQuickPlayServer, MacStartOnFirstThread]`. -/
theorem c8_traits_canonical_witness :
    renderJson (serComponent { sampleComponent with traits := (traitSetOfList
        [Trait.SupportsQuickPlayServer, Trait.MacStartOnFirstThread]) }) =
      renderJson (serComponent { sampleComponent with traits := (traitSetOfList
        [Trait.MacStartOnFirstThread, Trait.SupportsQuickPlayServer,
         Trait.MacStartOnFirstThread]) }) ∧
    (traitSetOfList
        [Trait.SupportsQuickPlayServer, Trait.MacStartOnFirstThread]).Pairwise
      (fun a b => a.rank < b.rank) ∧
    (traitSetOfList
        [Trait.SupportsQuickPlayServer, Trait.MacStartOnFirstThread]).Nodup :=
  c8_traits_canonical sampleComponent
    [Trait.SupportsQuickPlayServer, Trait.MacStartOnFirstThread]
    [Trait.MacStartOnFirstThread, Trait.SupportsQuickPlayServer,
     Trait.MacStartOnFirstThread]
    (by intro t; cases t <;> decide)

/-! ### Field omission and the closed schema -/

theorem mem_keys_append (k : String) (a b : List (String × Json)) :
    k ∈ (a ++ b).map Prod.fst ↔ k ∈ a.map Prod.fst ∨ k ∈ b.map Prod.fst := by
  simp

theorem pair_mem_skipIfEmptyKV (k : String) (x : Json) (nm : String)
    (b : Bool) (v : Json) :
    (k, x) ∈ skipIfEmptyKV b nm v ↔ b = false ∧ k = nm ∧ x = v := by
  cases b <;> simp [skipIfEmptyKV]

theorem pair_mem_optKV {α : Type} (k : String) (x : Json) (nm : String)
    (o : Option α) (f : α → Json) :
    (k, x) ∈ optKV o nm f ↔ ∃ a, o = some a ∧ k = nm ∧ x = f a := by
  cases o <;> simp [optKV]

/-- C9 counterexample: `downloads` and `classpath` carry no skip/default
attribute — the all-empty component serializes with `"downloads": []` and
`"classpath": []` present, and a document with every defaulted field
missing but also lacking `downloads` fails to deserialize instead of
defaulting it to the empty list. -/
theorem c9_counterexample :
    serComponent sampleComponent =
      Json.obj [("format_version", Json.num 1),
        ("id", Json.str "net.minecraft"), ("version", Json.str "1.20"),
        ("downloads", Json.arr []), ("classpath", Json.arr []),
        ("release_time", Json.str "2023-01-01T00:00:00Z")] ∧
    (deComponent (Json.obj [("format_version", Json.num 1),
        ("id", Json.str "x"), ("version", Json.str "1"),
        ("classpath", Json.arr []),
        ("release_time", Json.str "t")])).isOk = false := by
  exact ⟨rfl, rfl⟩

/-- C9 (amended): the omission policy holds for the defaulted fields — for
every component the serialized form has a `requires` key exactly when
`requires` is non-empty (likewise for the other skipped fields), missing
defaulted fields deserialize to empty/absent — but `downloads` (like
`classpath`) is always emitted, even when empty, and is required on input. -/
theorem c9_field_omission :
    (∀ c : Component,
      ("requires" ∈ (serComponentFields c).map Prod.fst ↔ c.requires ≠ [])) ∧
    (∀ c : Component, "downloads" ∈ (serComponentFields c).map Prod.fst) ∧
    deComponent (Json.obj [("format_version", Json.num 1),
        ("id", Json.str "x"), ("version", Json.str "1"),
        ("downloads", Json.arr []), ("classpath", Json.arr []),
        ("release_time", Json.str "t")]) =
      Except.ok ⟨1, "x", "1", [], [], [], [], [], [], none, [], [], none, none,
        [], [], [], "t"⟩ := by
  refine ⟨?_, ?_, rfl⟩
  · intro c
    simp [serComponentFields, pair_mem_skipIfEmptyKV, pair_mem_optKV,
      Bool.eq_false_iff, List.isEmpty_iff]
  · intro c
    simp [serComponentFields, pair_mem_skipIfEmptyKV, pair_mem_optKV]

/-- C10: deserializing a component document containing any field outside
the schema fails with an unknown-field error, wherever the field occurs. -/
theorem c10_unknown_field (fs1 fs2 : List (String × Json)) (k : String)
    (v : Json) (h : componentKeys.contains k = false) :
    (deComponent (Json.obj (fs1 ++ (k, v) :: fs2))).isOk = false := by
  simp only [deComponent]
  cases hf : (fs1 ++ (k, v) :: fs2).find?
      (fun f => !(componentKeys.contains f.1)) with
  | none =>
    exfalso
    have hmem : (k, v) ∈ fs1 ++ (k, v) :: fs2 :=
      List.mem_append.mpr (Or.inr (List.mem_cons_self _ _))
    have h2 : k ∉ componentKeys := by simpa using h
    have := List.find?_eq_none.mp hf (k, v) hmem
    simp [h2] at this
  | some f =>
    rfl

/-- Witness for `c10_unknown_field`: a well-formed document plus one extra
top-level field `frobnicate` is rejected. -/
theorem c10_unknown_field_witness :
    (deComponent (Json.obj ([("format_version", Json.num 1),
        ("id", Json.str "x"), ("version", Json.str "1"),
        ("downloads", Json.arr []), ("classpath", Json.arr []),
        ("release_time", Json.str "t")] ++
      ("frobnicate", Json.num 1) :: []))).isOk = false :=
  c10_unknown_field _ [] "frobnicate" (Json.num 1) rfl
